import Mathlib

/-!
Verification of the content deduplication / merge pipeline of the
find-animation repository, as implemented in
src/backend/src/scripts/populateUnified.js (class DatabasePopulator) and
src/backend/src/scripts/updateWeightedScores.js.

Embedding conventions:
* JavaScript numbers are modelled as exact rationals (ℚ).  A value that may
  be null or undefined is modelled as Option ℚ, with none standing for
  null/undefined.  JavaScript truthiness of such a value (used pervasively
  by the source in conditions such as (tmdbScore && tmdbVotes)) is the
  predicate truthy below: non-null and non-zero.  IEEE-754 rounding of
  finite arithmetic is not modelled (the model computes exactly); the
  special values NaN and Infinity are modelled separately by the JsNum
  type further below, used for the claims that are about them.
* Math.log10 is transcendental and therefore kept as an explicit function
  parameter lg of every definition that uses it.  Theorems that depend on
  properties of the real log10 (non-negativity on inputs at least 1) take
  those properties as hypotheses, which the real log10 satisfies.
* Database persistence, the relationship/franchise service calls and
  console logging are outside the modelled state; the merge functions are
  modelled as pure record transformers, with Date.now() passed in as an
  explicit parameter now.
-/

/-- JavaScript truthiness of a number-or-null value: null, undefined and 0
are falsy, every other number is truthy. -/
def truthy (o : Option ℚ) : Bool :=
  match o with
  | none => false
  | some q => q != 0

/-- JavaScript comparison v > c for a number-or-null v against a constant
c ≥ 0 (null coerces to 0, so none compares as 0; in the source the
comparison is only reached when v is truthy). -/
def jsGt (o : Option ℚ) (c : ℚ) : Bool :=
  decide (c < o.getD 0)

/-- JavaScript a || b on number-or-null values: a when truthy, else b. -/
def jsOr (a b : Option ℚ) : Option ℚ :=
  bif truthy a then a else b

/-- Source populateUnified.js line 59: hasMultipleSources is true when at
least two of the three inputs have a truthy score. -/
def hasMultipleSources (tmdbScore malScore userRatingAverage : Option ℚ) : Bool :=
  (truthy tmdbScore && truthy malScore) ||
  (truthy tmdbScore && truthy userRatingAverage) ||
  (truthy malScore && truthy userRatingAverage)

/-- Source populateUnified.js line 64: the guard under which the TMDB score
is pushed onto the scores array. -/
def includeTmdb (tmdbScore tmdbVotes malScore userRatingAverage : Option ℚ) : Bool :=
  truthy tmdbScore && truthy tmdbVotes &&
    (bif hasMultipleSources tmdbScore malScore userRatingAverage
     then jsGt tmdbVotes 10 else jsGt tmdbVotes 0)

/-- Source populateUnified.js line 71: the guard under which the MAL score
is pushed onto the scores array. -/
def includeMal (tmdbScore malScore malVotes userRatingAverage : Option ℚ) : Bool :=
  truthy malScore && truthy malVotes &&
    (bif hasMultipleSources tmdbScore malScore userRatingAverage
     then jsGt malVotes 100 else jsGt malVotes 0)

/-- Source populateUnified.js line 77: the guard under which the user
rating average is pushed onto the scores array (userRatingCount >= 5,
with null coercing to 0). -/
def includeUser (userRatingAverage userRatingCount : Option ℚ) : Bool :=
  truthy userRatingAverage && decide (5 ≤ userRatingCount.getD 0)

/-- The parallel arrays scores / weights of
calculateUnifiedScoreWithUserRatings (populateUnified.js lines 55-81),
represented as one list of (score, weight) pairs in push order:
TMDB first, then MAL, then the user aggregate.  Weights are
Math.log10(Math.max(votes, 1)), the user weight scaled by 0.8. -/
def includedSources (lg : ℚ → ℚ)
    (tmdbScore tmdbVotes malScore malVotes userRatingAverage userRatingCount : Option ℚ) :
    List (ℚ × ℚ) :=
  (bif includeTmdb tmdbScore tmdbVotes malScore userRatingAverage
   then [(tmdbScore.getD 0, lg (max (tmdbVotes.getD 0) 1))] else []) ++
  (bif includeMal tmdbScore malScore malVotes userRatingAverage
   then [(malScore.getD 0, lg (max (malVotes.getD 0) 1))] else []) ++
  (bif includeUser userRatingAverage userRatingCount
   then [(userRatingAverage.getD 0, lg (max (userRatingCount.getD 0) 1) * (4 / 5))] else [])

/-- Source populateUnified.js lines 83-90: null on an empty scores array;
the unweighted mean when the total weight is 0; otherwise the weighted
mean. -/
def scoreFromSources (sw : List (ℚ × ℚ)) : Option ℚ :=
  if sw = [] then none
  else
    if (sw.map Prod.snd).sum = 0 then
      some ((sw.map Prod.fst).sum / (sw.length : ℚ))
    else
      some ((sw.map (fun p => p.1 * p.2)).sum / (sw.map Prod.snd).sum)

/-- Source populateUnified.js lines 47-91 (duplicated verbatim in
src/unnamed/part_002): the Score Unifier. -/
def calculateUnifiedScoreWithUserRatings (lg : ℚ → ℚ)
    (tmdbScore tmdbVotes malScore malVotes userRatingAverage userRatingCount : Option ℚ) :
    Option ℚ :=
  scoreFromSources
    (includedSources lg tmdbScore tmdbVotes malScore malVotes userRatingAverage userRatingCount)

/-- C3: the Score Unifier returns null when every input is absent, and a
sole source with zero votes never qualifies: unify(null, null, null) is
null, and unify(score 8 with 0 votes, null, null) is null, for any user
rating count and any model of Math.log10. -/
theorem c3_null_propagation : ∀ lg : ℚ → ℚ, ∀ uc : Option ℚ,
    calculateUnifiedScoreWithUserRatings lg none none none none none uc = none ∧
    calculateUnifiedScoreWithUserRatings lg (some 8) (some 0) none none none uc = none := by
  intro lg uc
  constructor <;>
    simp [calculateUnifiedScoreWithUserRatings, includedSources, includeTmdb, includeMal,
      includeUser, truthy, hasMultipleSources, scoreFromSources, jsGt]

/-- C2: threshold boundaries of the Score Unifier when hasMultipleSources
holds.  A truthy TMDB score with exactly 10 votes is excluded (and the
unified result is the same as if the TMDB votes were absent), with 11
votes it is included (its score appears in the scores array); a truthy
MAL score is excluded at 100 votes and included at 101; the user
aggregate is included exactly when its average is truthy and its count is
at least 5, hence excluded at 4 and included at 5. -/
theorem c2_threshold_boundaries (lg : ℚ → ℚ) (ts ms mv ua uc : Option ℚ)
    (hm : hasMultipleSources ts ms ua = true) :
    (truthy ts = true →
      includeTmdb ts (some 10) ms ua = false ∧
      includeTmdb ts (some 11) ms ua = true ∧
      calculateUnifiedScoreWithUserRatings lg ts (some 10) ms mv ua uc =
        calculateUnifiedScoreWithUserRatings lg ts none ms mv ua uc ∧
      ts.getD 0 ∈ (includedSources lg ts (some 11) ms mv ua uc).map Prod.fst) ∧
    (truthy ms = true →
      includeMal ts ms (some 100) ua = false ∧
      includeMal ts ms (some 101) ua = true) ∧
    (includeUser ua uc = true ↔ truthy ua = true ∧ 5 ≤ uc.getD 0) ∧
    (truthy ua = true →
      includeUser ua (some 4) = false ∧ includeUser ua (some 5) = true) := by
  have g10 : jsGt (some (10:ℚ)) 10 = false := by decide
  have g11 : jsGt (some (11:ℚ)) 10 = true := by decide
  have t11 : truthy (some (11:ℚ)) = true := by decide
  have g100 : jsGt (some (100:ℚ)) 100 = false := by decide
  have g101 : jsGt (some (101:ℚ)) 100 = true := by decide
  have t101 : truthy (some (101:ℚ)) = true := by decide
  refine ⟨?_, ?_, ?_, ?_⟩
  · intro hts
    refine ⟨?_, ?_, ?_, ?_⟩
    · simp [includeTmdb, hm, g10]
    · simp [includeTmdb, hm, g11, t11, hts]
    · have h10 : includeTmdb ts (some 10) ms ua = false := by simp [includeTmdb, hm, g10]
      have hn : includeTmdb ts none ms ua = false := by simp [includeTmdb, truthy]
      simp [calculateUnifiedScoreWithUserRatings, includedSources, h10, hn]
    · have h11 : includeTmdb ts (some 11) ms ua = true := by
        simp [includeTmdb, hm, g11, t11, hts]
      simp [includedSources, h11]
  · intro hms
    constructor
    · simp [includeMal, hm, g100]
    · simp [includeMal, hm, g101, t101, hms]
  · simp [includeUser]
  · intro hua
    have h4 : decide (5 ≤ ((some (4:ℚ)).getD 0)) = false := by decide
    have h5 : decide (5 ≤ ((some (5:ℚ)).getD 0)) = true := by decide
    constructor
    · simp only [includeUser, hua, Bool.true_and]
      exact h4
    · simp only [includeUser, hua, Bool.true_and]
      exact h5

/-- Witness for c2_threshold_boundaries at a concrete multi-source input:
TMDB score 8, MAL score 7 with 200 votes, user average 6 with count 9. -/
theorem c2_threshold_boundaries_witness :
    (includeTmdb (some 8) (some 10) (some 7) (some 6) = false ∧
     includeTmdb (some 8) (some 11) (some 7) (some 6) = true) ∧
    (includeMal (some 8) (some 7) (some 100) (some 6) = false ∧
     includeMal (some 8) (some 7) (some 101) (some 6) = true) ∧
    (includeUser (some 6) (some 4) = false ∧ includeUser (some 6) (some 5) = true) := by
  have h := c2_threshold_boundaries (fun _ => 0) (some 8) (some 7) (some 200) (some 6) (some 9)
    (by decide)
  have h1 := h.1 (by decide)
  have h2 := h.2.1 (by decide)
  have h4 := h.2.2.2 (by decide)
  exact ⟨⟨h1.1, h1.2.1⟩, h2, h4⟩

/-- Pointwise relation between two (score, weight) lists: same weights,
scores no larger on the left. -/
def pairLe (p q : ℚ × ℚ) : Prop := p.1 ≤ q.1 ∧ p.2 = q.2

/-- Order on nullable results: null compares only with null. -/
def optLe : Option ℚ → Option ℚ → Prop
  | none, none => True
  | some a, some b => a ≤ b
  | _, _ => False

lemma pairLe_refl (l : List (ℚ × ℚ)) : List.Forall₂ pairLe l l :=
  List.forall₂_same.mpr (fun _ _ => ⟨le_refl _, rfl⟩)

lemma pairLe_append {l1 l2 l3 l4 : List (ℚ × ℚ)} (h12 : List.Forall₂ pairLe l1 l2)
    (h34 : List.Forall₂ pairLe l3 l4) : List.Forall₂ pairLe (l1 ++ l3) (l2 ++ l4) := by
  induction h12 with
  | nil => simpa using h34
  | cons h _ ih => exact List.Forall₂.cons h ih

lemma pairLe_snd_eq {l1 l2 : List (ℚ × ℚ)} (h : List.Forall₂ pairLe l1 l2) :
    l1.map Prod.snd = l2.map Prod.snd := by
  induction h with
  | nil => rfl
  | cons hpq _ ih => simp only [List.map_cons, hpq.2, ih]

lemma pairLe_fst_sum {l1 l2 : List (ℚ × ℚ)} (h : List.Forall₂ pairLe l1 l2) :
    (l1.map Prod.fst).sum ≤ (l2.map Prod.fst).sum := by
  induction h with
  | nil => exact le_refl 0
  | cons hpq _ ih =>
    simp only [List.map_cons, List.sum_cons]
    exact add_le_add hpq.1 ih

lemma pairLe_mul_sum {l1 l2 : List (ℚ × ℚ)} (h : List.Forall₂ pairLe l1 l2)
    (hw : ∀ p ∈ l1, 0 ≤ p.2) :
    (l1.map (fun p => p.1 * p.2)).sum ≤ (l2.map (fun p => p.1 * p.2)).sum := by
  induction h with
  | nil => exact le_refl 0
  | cons hpq htail ih =>
    simp only [List.map_cons, List.sum_cons]
    refine add_le_add ?_ (ih (fun p hp => hw p (List.mem_cons_of_mem _ hp)))
    have h0 := hw _ (List.mem_cons_self _ _)
    calc _ ≤ _ := mul_le_mul_of_nonneg_right hpq.1 h0
    _ = _ := by rw [hpq.2]

/-- Monotonicity of the final aggregation step of the Score Unifier under
a pointwise score increase with unchanged non-negative weights. -/
lemma scoreFromSources_mono {l1 l2 : List (ℚ × ℚ)} (h : List.Forall₂ pairLe l1 l2)
    (hw : ∀ p ∈ l1, 0 ≤ p.2) : optLe (scoreFromSources l1) (scoreFromSources l2) := by
  by_cases h1 : l1 = []
  · subst h1
    have h2 : l2 = [] := (List.forall₂_nil_left_iff.mp h)
    subst h2
    simp [scoreFromSources, optLe]
  · have h2 : l2 ≠ [] := by
      intro e
      subst e
      exact h1 (List.forall₂_nil_right_iff.mp h)
    have hsnd := pairLe_snd_eq h
    have hlen := h.length_eq
    rw [scoreFromSources, scoreFromSources, if_neg h1, if_neg h2, ← hsnd, ← hlen]
    by_cases hz : (l1.map Prod.snd).sum = 0
    · rw [if_pos hz, if_pos hz]
      have hlp : (0:ℚ) ≤ (l1.length : ℚ) := by positivity
      simpa [optLe] using div_le_div_of_nonneg_right (pairLe_fst_sum h) hlp
    · rw [if_neg hz, if_neg hz]
      have htot : (0:ℚ) ≤ (l1.map Prod.snd).sum := by
        refine List.sum_nonneg ?_
        intro x hx
        rcases List.mem_map.mp hx with ⟨p, hp, rfl⟩
        exact hw p hp
      simpa [optLe] using div_le_div_of_nonneg_right (pairLe_mul_sum h hw) htot

/-- Every weight produced by the Score Unifier is non-negative, because
each weight is lg applied to a value at least 1 (the user weight is
further scaled by the positive factor 0.8). -/
lemma includedSources_weight_nonneg (lg : ℚ → ℚ) (hlg : ∀ q : ℚ, 1 ≤ q → 0 ≤ lg q)
    (ts tv ms mv ua uc : Option ℚ) :
    ∀ p ∈ includedSources lg ts tv ms mv ua uc, 0 ≤ p.2 := by
  have hone : ∀ (c : Bool) (x p : ℚ × ℚ), p ∈ (bif c then [x] else []) → p = x := by
    intro c x p hp
    cases c
    · simp at hp
    · simpa using hp
  intro p hp
  unfold includedSources at hp
  rcases List.mem_append.mp hp with hp' | hp'
  · rcases List.mem_append.mp hp' with hp'' | hp''
    · rw [hone _ _ _ hp'']
      exact hlg _ (le_max_right _ 1)
    · rw [hone _ _ _ hp'']
      exact hlg _ (le_max_right _ 1)
  · rw [hone _ _ _ hp']
    have : (0:ℚ) ≤ lg (max (uc.getD 0) 1) := hlg _ (le_max_right _ 1)
    positivity

lemma truthy_eq_of_ne {a b : ℚ} (ha : a ≠ 0) (hb : b ≠ 0) :
    truthy (some a) = true ∧ truthy (some b) = true := by
  constructor <;> simp [truthy, ha, hb]

/-- C5: the Score Unifier is monotone in each source score.  For any two
inputs with identical vote counts that differ only in one source score,
both values truthy (so the source-presence pattern, and hence every
inclusion decision, is identical), a larger score gives a result at least
as large.  The hypothesis on lg (non-negativity on arguments at least 1)
is satisfied by the real Math.log10. -/
theorem c5_score_monotonicity (lg : ℚ → ℚ) (hlg : ∀ q : ℚ, 1 ≤ q → 0 ≤ lg q)
    (ts tv ms mv ua uc : Option ℚ) (a b : ℚ) (ha : a ≠ 0) (hb : b ≠ 0) (hab : a ≤ b) :
    optLe (calculateUnifiedScoreWithUserRatings lg (some a) tv ms mv ua uc)
          (calculateUnifiedScoreWithUserRatings lg (some b) tv ms mv ua uc) ∧
    optLe (calculateUnifiedScoreWithUserRatings lg ts tv (some a) mv ua uc)
          (calculateUnifiedScoreWithUserRatings lg ts tv (some b) mv ua uc) ∧
    optLe (calculateUnifiedScoreWithUserRatings lg ts tv ms mv (some a) uc)
          (calculateUnifiedScoreWithUserRatings lg ts tv ms mv (some b) uc) := by
  obtain ⟨hta, htb⟩ := truthy_eq_of_ne ha hb
  refine ⟨?_, ?_, ?_⟩
  · have hmulti : hasMultipleSources (some a) ms ua = hasMultipleSources (some b) ms ua := by
      simp [hasMultipleSources, hta, htb]
    have hIT : includeTmdb (some a) tv ms ua = includeTmdb (some b) tv ms ua := by
      unfold includeTmdb
      rw [hmulti, hta, htb]
    have hIM : includeMal (some a) ms mv ua = includeMal (some b) ms mv ua := by
      unfold includeMal
      rw [hmulti]
    refine scoreFromSources_mono ?_ (includedSources_weight_nonneg lg hlg _ _ _ _ _ _)
    unfold includedSources
    rw [hIT, hIM]
    refine pairLe_append (pairLe_append ?_ (pairLe_refl _)) (pairLe_refl _)
    cases includeTmdb (some b) tv ms ua
    · exact List.Forall₂.nil
    · exact List.Forall₂.cons ⟨by simpa using hab, rfl⟩ List.Forall₂.nil
  · have hmulti : hasMultipleSources ts (some a) ua = hasMultipleSources ts (some b) ua := by
      simp [hasMultipleSources, hta, htb]
    have hIT : includeTmdb ts tv (some a) ua = includeTmdb ts tv (some b) ua := by
      unfold includeTmdb
      rw [hmulti]
    have hIM : includeMal ts (some a) mv ua = includeMal ts (some b) mv ua := by
      unfold includeMal
      rw [hmulti, hta, htb]
    refine scoreFromSources_mono ?_ (includedSources_weight_nonneg lg hlg _ _ _ _ _ _)
    unfold includedSources
    rw [hIT, hIM]
    refine pairLe_append (pairLe_append (pairLe_refl _) ?_) (pairLe_refl _)
    cases includeMal ts (some b) mv ua
    · exact List.Forall₂.nil
    · exact List.Forall₂.cons ⟨by simpa using hab, rfl⟩ List.Forall₂.nil
  · have hmulti : hasMultipleSources ts ms (some a) = hasMultipleSources ts ms (some b) := by
      simp [hasMultipleSources, hta, htb]
    have hIT : includeTmdb ts tv ms (some a) = includeTmdb ts tv ms (some b) := by
      unfold includeTmdb
      rw [hmulti]
    have hIM : includeMal ts ms mv (some a) = includeMal ts ms mv (some b) := by
      unfold includeMal
      rw [hmulti]
    have hIU : includeUser (some a) uc = includeUser (some b) uc := by
      unfold includeUser
      rw [hta, htb]
    refine scoreFromSources_mono ?_ (includedSources_weight_nonneg lg hlg _ _ _ _ _ _)
    unfold includedSources
    rw [hIT, hIM, hIU]
    refine pairLe_append (pairLe_append (pairLe_refl _) (pairLe_refl _)) ?_
    cases includeUser (some b) uc
    · exact List.Forall₂.nil
    · exact List.Forall₂.cons ⟨by simpa using hab, rfl⟩ List.Forall₂.nil

/-- Witness for c5_score_monotonicity: raising a sole TMDB score from 7 to
8 at 50 votes does not decrease the unified result. -/
theorem c5_score_monotonicity_witness :
    optLe (calculateUnifiedScoreWithUserRatings (fun _ => 0) (some 7) (some 50) none none none none)
          (calculateUnifiedScoreWithUserRatings (fun _ => 0) (some 8) (some 50) none none none none) :=
  (c5_score_monotonicity (fun _ => 0) (fun _ _ => le_refl 0) none (some 50) none none none none
    7 8 (by norm_num) (by norm_num) (by norm_num)).1

/-- JavaScript number with the IEEE-754 special values NaN and the two
infinities made explicit; finite values are exact rationals (rounding and
overflow of finite arithmetic are not modelled, signed zero is collapsed
to 0).  Used for the claims about non-finite values. -/
inductive JsNum where
  | nan : JsNum
  | inf : JsNum
  | negInf : JsNum
  | fin : ℚ → JsNum
deriving DecidableEq

/-- JavaScript truthiness over JsNum: NaN and 0 are falsy, infinities and
other finite numbers are truthy. -/
def truthyF : Option JsNum → Bool
  | none => false
  | some .nan => false
  | some .inf => true
  | some .negInf => true
  | some (.fin q) => q != 0

/-- JavaScript comparison v > c against a finite literal c; null coerces
to 0, NaN compares false. -/
def jsGtF (o : Option JsNum) (c : ℚ) : Bool :=
  match o with
  | none => decide (c < 0)
  | some .nan => false
  | some .inf => true
  | some .negInf => false
  | some (.fin q) => decide (c < q)

/-- JavaScript comparison v >= c against a finite literal c; null coerces
to 0, NaN compares false. -/
def jsGeF (o : Option JsNum) (c : ℚ) : Bool :=
  match o with
  | none => decide (c ≤ 0)
  | some .nan => false
  | some .inf => true
  | some .negInf => false
  | some (.fin q) => decide (c ≤ q)

/-- Math.max against a finite literal. -/
def maxF : JsNum → ℚ → JsNum
  | .nan, _ => .nan
  | .inf, _ => .inf
  | .negInf, c => .fin c
  | .fin q, c => .fin (max q c)

/-- Math.log10 on JsNum: NaN on NaN and on negative arguments, negative
infinity at 0, infinity at infinity; on positive finite arguments the
abstract finite log lg. -/
def log10F (lg : ℚ → ℚ) : JsNum → JsNum
  | .nan => .nan
  | .inf => .inf
  | .negInf => .nan
  | .fin q => if q < 0 then .nan else if q = 0 then .negInf else .fin (lg q)

/-- IEEE-754 addition on JsNum (exact on finite operands). -/
def addF : JsNum → JsNum → JsNum
  | .nan, _ => .nan
  | _, .nan => .nan
  | .inf, .negInf => .nan
  | .negInf, .inf => .nan
  | .inf, _ => .inf
  | _, .inf => .inf
  | .negInf, _ => .negInf
  | _, .negInf => .negInf
  | .fin a, .fin b => .fin (a + b)

/-- IEEE-754 multiplication on JsNum (exact on finite operands). -/
def mulF : JsNum → JsNum → JsNum
  | .nan, _ => .nan
  | _, .nan => .nan
  | .inf, .inf => .inf
  | .inf, .negInf => .negInf
  | .negInf, .inf => .negInf
  | .negInf, .negInf => .inf
  | .inf, .fin b => if b = 0 then .nan else if 0 < b then .inf else .negInf
  | .fin a, .inf => if a = 0 then .nan else if 0 < a then .inf else .negInf
  | .negInf, .fin b => if b = 0 then .nan else if 0 < b then .negInf else .inf
  | .fin a, .negInf => if a = 0 then .nan else if 0 < a then .negInf else .inf
  | .fin a, .fin b => .fin (a * b)

/-- IEEE-754 division on JsNum (exact on finite operands, signed zero
collapsed so division by zero takes the sign of the numerator). -/
def divF : JsNum → JsNum → JsNum
  | .nan, _ => .nan
  | _, .nan => .nan
  | .inf, .inf => .nan
  | .inf, .negInf => .nan
  | .negInf, .inf => .nan
  | .negInf, .negInf => .nan
  | .inf, .fin b => if b < 0 then .negInf else .inf
  | .negInf, .fin b => if b < 0 then .inf else .negInf
  | .fin _, .inf => .fin 0
  | .fin _, .negInf => .fin 0
  | .fin a, .fin b =>
      if b = 0 then (if a = 0 then .nan else if 0 < a then .inf else .negInf)
      else .fin (a / b)

/-- Null coercion of a possibly absent JsNum in a context where the source
has already established truthiness. -/
def getDF (o : Option JsNum) : JsNum := o.getD (.fin 0)

/-- Array.prototype.reduce((sum, w) => sum + w, 0) over JsNum. -/
def sumF (l : List JsNum) : JsNum := l.foldl addF (.fin 0)

def hasMultipleSourcesF (tmdbScore malScore userRatingAverage : Option JsNum) : Bool :=
  (truthyF tmdbScore && truthyF malScore) ||
  (truthyF tmdbScore && truthyF userRatingAverage) ||
  (truthyF malScore && truthyF userRatingAverage)

def includeTmdbF (tmdbScore tmdbVotes malScore userRatingAverage : Option JsNum) : Bool :=
  truthyF tmdbScore && truthyF tmdbVotes &&
    (bif hasMultipleSourcesF tmdbScore malScore userRatingAverage
     then jsGtF tmdbVotes 10 else jsGtF tmdbVotes 0)

def includeMalF (tmdbScore malScore malVotes userRatingAverage : Option JsNum) : Bool :=
  truthyF malScore && truthyF malVotes &&
    (bif hasMultipleSourcesF tmdbScore malScore userRatingAverage
     then jsGtF malVotes 100 else jsGtF malVotes 0)

def includeUserF (userRatingAverage userRatingCount : Option JsNum) : Bool :=
  truthyF userRatingAverage && jsGeF userRatingCount 5

def includedSourcesF (lg : ℚ → ℚ)
    (tmdbScore tmdbVotes malScore malVotes userRatingAverage userRatingCount : Option JsNum) :
    List (JsNum × JsNum) :=
  (bif includeTmdbF tmdbScore tmdbVotes malScore userRatingAverage
   then [(getDF tmdbScore, log10F lg (maxF (getDF tmdbVotes) 1))] else []) ++
  (bif includeMalF tmdbScore malScore malVotes userRatingAverage
   then [(getDF malScore, log10F lg (maxF (getDF malVotes) 1))] else []) ++
  (bif includeUserF userRatingAverage userRatingCount
   then [(getDF userRatingAverage,
          mulF (log10F lg (maxF (getDF userRatingCount) 1)) (.fin (4 / 5)))] else [])

def scoreFromSourcesF (sw : List (JsNum × JsNum)) : Option JsNum :=
  if sw = [] then none
  else
    if sumF (sw.map Prod.snd) = .fin 0 then
      some (divF (sumF (sw.map Prod.fst)) (.fin (sw.length : ℚ)))
    else
      some (divF (sumF (sw.map (fun p => mulF p.1 p.2))) (sumF (sw.map Prod.snd)))

/-- The Score Unifier of populateUnified.js lines 47-91 over JsNum, the
model that keeps the IEEE-754 special values explicit. -/
def calculateUnifiedScoreWithUserRatingsF (lg : ℚ → ℚ)
    (tmdbScore tmdbVotes malScore malVotes userRatingAverage userRatingCount : Option JsNum) :
    Option JsNum :=
  scoreFromSourcesF
    (includedSourcesF lg tmdbScore tmdbVotes malScore malVotes userRatingAverage userRatingCount)

/-- Input is not one of the two infinities (it may be absent, NaN or
finite). -/
def notInfinite : Option JsNum → Prop
  | some .inf => False
  | some .negInf => False
  | _ => True

/-- Result is absent (null) or a finite number. -/
def finiteResult : Option JsNum → Prop
  | none => True
  | some (.fin _) => True
  | _ => False

lemma getDF_some (v : JsNum) : getDF (some v) = v := rfl

lemma mem_bif_single {α : Type _} {c : Bool} {x p : α} (hp : p ∈ (bif c then [x] else [])) :
    c = true ∧ p = x := by
  cases c
  · simp at hp
  · simpa using hp

lemma truthyF_fin {o : Option JsNum} (ht : truthyF o = true) (hn : notInfinite o) :
    ∃ q : ℚ, o = some (.fin q) := by
  cases o with
  | none => exact absurd ht (by decide)
  | some v =>
    cases v with
    | nan => exact absurd ht (by decide)
    | inf => exact hn.elim
    | negInf => exact hn.elim
    | fin q => exact ⟨q, rfl⟩

lemma jsGeF_fin {o : Option JsNum} (hg : jsGeF o 5 = true) (hn : notInfinite o) :
    ∃ q : ℚ, o = some (.fin q) := by
  cases o with
  | none => exact absurd hg (by decide)
  | some v =>
    cases v with
    | nan => exact absurd hg (by decide)
    | inf => exact hn.elim
    | negInf => exact absurd hg (by decide)
    | fin q => exact ⟨q, rfl⟩

lemma log10F_maxF_fin (lg : ℚ → ℚ) (v : ℚ) :
    log10F lg (maxF (.fin v) 1) = .fin (lg (max v 1)) := by
  have h1 : (0:ℚ) < max v 1 := lt_of_lt_of_le zero_lt_one (le_max_right v 1)
  simp only [maxF, log10F]
  rw [if_neg (not_lt.mpr h1.le), if_neg h1.ne']

lemma foldl_addF_fin : ∀ (l : List JsNum) (q : ℚ), (∀ x ∈ l, ∃ r : ℚ, x = .fin r) →
    ∃ s : ℚ, l.foldl addF (.fin q) = .fin s := by
  intro l
  induction l with
  | nil => exact fun q _ => ⟨q, rfl⟩
  | cons x t ih =>
    intro q h
    obtain ⟨r, rfl⟩ := h x (List.mem_cons_self x t)
    simp only [List.foldl_cons]
    exact ih (q + r) (fun y hy => h y (List.mem_cons_of_mem _ hy))

lemma sumF_fin {l : List JsNum} (h : ∀ x ∈ l, ∃ r : ℚ, x = .fin r) :
    ∃ s : ℚ, sumF l = .fin s :=
  foldl_addF_fin l 0 h

lemma divF_fin (a b : ℚ) (hb : b ≠ 0) : divF (.fin a) (.fin b) = .fin (a / b) := by
  simp [divF, hb]

/-- C4 (amended): when no input of the Score Unifier is infinite, the
result is null or finite: NaN inputs are excluded because NaN is falsy
and fails every comparison, and the included scores, weights and the
weighted mean are then all finite.  There is no guard against infinite
inputs (see the counterexample, where an infinite score propagates to an
infinite result instead of null). -/
theorem c4_no_nan_from_nan_free_infinities (lg : ℚ → ℚ)
    (ts tv ms mv ua uc : Option JsNum)
    (h1 : notInfinite ts) (h2 : notInfinite tv) (h3 : notInfinite ms)
    (h4 : notInfinite mv) (h5 : notInfinite ua) (h6 : notInfinite uc) :
    finiteResult (calculateUnifiedScoreWithUserRatingsF lg ts tv ms mv ua uc) := by
  have hpair : ∀ p ∈ includedSourcesF lg ts tv ms mv ua uc,
      (∃ x : ℚ, p.1 = JsNum.fin x) ∧ (∃ y : ℚ, p.2 = JsNum.fin y) := by
    intro p hp
    unfold includedSourcesF at hp
    rcases List.mem_append.mp hp with hp1 | hp1
    · rcases List.mem_append.mp hp1 with hp2 | hp2
      · obtain ⟨hc, rfl⟩ := mem_bif_single hp2
        rw [includeTmdbF, Bool.and_eq_true, Bool.and_eq_true] at hc
        obtain ⟨⟨hts, htv⟩, _⟩ := hc
        obtain ⟨q1, hq1⟩ := truthyF_fin hts h1
        obtain ⟨q2, hq2⟩ := truthyF_fin htv h2
        subst hq1
        subst hq2
        simp only [getDF_some, log10F_maxF_fin]
        exact ⟨⟨q1, rfl⟩, ⟨lg (max q2 1), rfl⟩⟩
      · obtain ⟨hc, rfl⟩ := mem_bif_single hp2
        rw [includeMalF, Bool.and_eq_true, Bool.and_eq_true] at hc
        obtain ⟨⟨hms, hmv⟩, _⟩ := hc
        obtain ⟨q1, hq1⟩ := truthyF_fin hms h3
        obtain ⟨q2, hq2⟩ := truthyF_fin hmv h4
        subst hq1
        subst hq2
        simp only [getDF_some, log10F_maxF_fin]
        exact ⟨⟨q1, rfl⟩, ⟨lg (max q2 1), rfl⟩⟩
    · obtain ⟨hc, rfl⟩ := mem_bif_single hp1
      rw [includeUserF, Bool.and_eq_true] at hc
      obtain ⟨hua, huc⟩ := hc
      obtain ⟨q1, hq1⟩ := truthyF_fin hua h5
      obtain ⟨q2, hq2⟩ := jsGeF_fin huc h6
      subst hq1
      subst hq2
      simp only [getDF_some, log10F_maxF_fin]
      exact ⟨⟨q1, rfl⟩, ⟨lg (max q2 1) * (4 / 5), rfl⟩⟩
  rw [calculateUnifiedScoreWithUserRatingsF]
  set l := includedSourcesF lg ts tv ms mv ua uc with hl
  by_cases hemp : l = []
  · rw [scoreFromSourcesF, if_pos hemp]
    exact trivial
  · have hsnd : ∀ x ∈ l.map Prod.snd, ∃ r : ℚ, x = .fin r := by
      intro x hx
      rcases List.mem_map.mp hx with ⟨p, hp, rfl⟩
      exact (hpair p hp).2
    obtain ⟨T, hT⟩ := sumF_fin hsnd
    rw [scoreFromSourcesF, if_neg hemp]
    by_cases hz : sumF (l.map Prod.snd) = JsNum.fin 0
    · rw [if_pos hz]
      have hfst : ∀ x ∈ l.map Prod.fst, ∃ r : ℚ, x = .fin r := by
        intro x hx
        rcases List.mem_map.mp hx with ⟨p, hp, rfl⟩
        exact (hpair p hp).1
      obtain ⟨S, hS⟩ := sumF_fin hfst
      have hlen : ((l.length : ℚ)) ≠ 0 := by
        have h0 : l.length ≠ 0 := by simpa using hemp
        exact_mod_cast h0
      rw [hS, divF_fin _ _ hlen]
      exact trivial
    · rw [if_neg hz]
      have hprod : ∀ x ∈ l.map (fun p => mulF p.1 p.2), ∃ r : ℚ, x = .fin r := by
        intro x hx
        rcases List.mem_map.mp hx with ⟨p, hp, rfl⟩
        obtain ⟨⟨a, ha⟩, ⟨b, hb⟩⟩ := hpair p hp
        rw [ha, hb]
        exact ⟨a * b, rfl⟩
      obtain ⟨W, hW⟩ := sumF_fin hprod
      have hT0 : T ≠ 0 := by
        intro e
        apply hz
        rw [hT, e]
      rw [hW, hT, divF_fin _ _ hT0]
      exact trivial

/-- Witness for c4_no_nan_from_nan_free_infinities: a NaN TMDB score with
finite votes yields a null-or-finite result. -/
theorem c4_no_nan_from_nan_free_infinities_witness :
    finiteResult (calculateUnifiedScoreWithUserRatingsF (fun _ => 0)
      (some .nan) (some (.fin 7)) none none none none) :=
  c4_no_nan_from_nan_free_infinities (fun _ => 0) (some .nan) (some (.fin 7)) none none none none
    trivial trivial trivial trivial trivial trivial

/-- C4 counterexample: an infinite TMDB score with one vote (the real
Math.log10 of 1 is exactly 0, matching the lg model used here) propagates
to an infinite unified result; the claim says any non-finite intermediate
must yield null. -/
theorem c4_counterexample :
    calculateUnifiedScoreWithUserRatingsF (fun _ => 0) (some .inf) (some (.fin 1)) none none none
      (some (.fin 0)) = some .inf := by
  have t1 : ((1:ℚ) != 0) = true := by decide
  norm_num [calculateUnifiedScoreWithUserRatingsF, includedSourcesF, includeTmdbF, includeMalF,
    includeUserF, hasMultipleSourcesF, truthyF, jsGtF, jsGeF, scoreFromSourcesF, sumF, addF,
    divF, mulF, log10F, maxF, getDF, t1]

/-- Character-level lowercasing, modelling String.prototype.toLowerCase
(the source only lowercases ASCII genre names, titles and keywords). -/
def jsToLower (s : String) : String := String.mk (s.data.map Char.toLower)

/-- A genre value as stored in the document store: either a plain string
or an object with an optional numeric id and an optional name. -/
inductive JsGenre where
  | str : String → JsGenre
  | obj : Option ℤ → Option String → JsGenre
deriving DecidableEq

/-- The deduplication key of populateUnified.js lines 583-589: null when
the genre or its name is falsy (the entry is skipped); otherwise
id:$-id- when the id is truthy (non-null, non-zero), else
name:$-lowercased name-. -/
def genreKey : JsGenre → Option String
  | .str s => if s = "" then none else some ("name:" ++ jsToLower s)
  | .obj i n =>
    match n with
    | none => none
    | some nm =>
      if nm = "" then none
      else
        match i with
        | none => some ("name:" ++ jsToLower nm)
        | some iv =>
          if iv = 0 then some ("name:" ++ jsToLower nm) else some ("id:" ++ toString iv)

/-- The value stored in the Map at line 592: the object itself, or, for a
string genre, the object with that string as name and no id. -/
def genreVal : JsGenre → JsGenre
  | .str s => .obj none (some s)
  | .obj i n => .obj i n

/-- One step of the Map-building forEach of deduplicateGenres: the state
is the insertion-ordered key list paired with the stored values. -/
def dedupStep (st : List String × List JsGenre) (g : JsGenre) : List String × List JsGenre :=
  match genreKey g with
  | none => st
  | some k => if k ∈ st.1 then st else (st.1 ++ [k], st.2 ++ [genreVal g])

/-- Source populateUnified.js lines 574-597: deduplicate genres by key,
first occurrence wins, output in insertion order (JavaScript Map
preserves insertion order).  The null / non-array guard of line 575 is
outside the model because every call site passes an array literal. -/
def deduplicateGenres (genres : List JsGenre) : List JsGenre :=
  (genres.foldl dedupStep ([], [])).2

/-- One step of JavaScript Set construction: append if not yet present. -/
def insertUniq {α : Type _} [DecidableEq α] (acc : List α) (x : α) : List α :=
  if x ∈ acc then acc else acc ++ [x]

/-- The spread [...new Set(l)] of the merge methods: exact-equality
deduplication keeping the first occurrence, in insertion order. -/
def jsSetList {α : Type _} [DecidableEq α] (l : List α) : List α :=
  l.foldl insertUniq []

/-- The unit of deduplication and merging: the fields of the Content
document read or written by the merge methods of populateUnified.js.
Dates are modelled by their observable content (release dates by the
year that new Date(d).getFullYear() extracts, timestamps as integers);
the relationship fields are mutated only by the external relationship
service (spec section 4.6) and are outside the model. -/
structure Content where
  title : Option String
  overview : Option String
  posterPath : Option String
  releaseDate : Option ℤ
  contentType : String
  tmdbId : Option ℤ
  malId : Option ℤ
  voteAverage : Option ℚ
  voteCount : Option ℚ
  popularity : Option ℚ
  malScore : Option ℚ
  malScoredBy : Option ℚ
  malRank : Option ℚ
  malStatus : Option String
  malEpisodes : Option ℚ
  malSource : Option String
  malRating : Option String
  episodeCount : Option ℚ
  runtime : Option ℚ
  studios : List String
  alternativeTitles : List String
  genres : List JsGenre
  userRatingAverage : Option ℚ
  userRatingCount : Option ℚ
  unifiedScore : Option ℚ
  dsTmdbHasData : Bool
  dsTmdbLastUpdated : Option ℤ
  dsMalHasData : Bool
  dsMalLastUpdated : Option ℤ
  lastUpdated : Option ℤ
deriving DecidableEq

/-- An incoming converted provider record (the contentData produced by
the conversion services); title and overview are strings because the
merge reads their length unconditionally. -/
structure ContentData where
  title : String
  overview : String
  posterPath : Option String
  releaseDate : Option ℤ
  tmdbId : Option ℤ
  malId : Option ℤ
  voteAverage : Option ℚ
  voteCount : Option ℚ
  popularity : Option ℚ
  malScore : Option ℚ
  malScoredBy : Option ℚ
  malRank : Option ℚ
  malStatus : Option String
  malEpisodes : Option ℚ
  malSource : Option String
  malRating : Option String
  studios : List String
  alternativeTitles : List String
  genres : List JsGenre
deriving DecidableEq

/-- Bool test for l starting with the first list (String.prototype
includes, restricted to a candidate start). -/
def leadsWith : List Char → List Char → Bool
  | [], _ => true
  | _ :: _, [] => false
  | a :: as, b :: bs => a == b && leadsWith as bs

/-- String.prototype.includes: some suffix of s starts with sub. -/
def jsIncludes (s sub : String) : Bool :=
  s.data.tails.any (fun t => leadsWith sub.data t)

def animeKeywords : List String := ["anime", "manga", "japanese", "japan"]

/-- Source populateUnified.js lines 738-750: keyword search over
lowercased title, overview and studios. -/
def isAnimeContent (c : ContentData) : Bool :=
  animeKeywords.any (fun keyword =>
    jsIncludes (jsToLower c.title) keyword ||
    jsIncludes (jsToLower c.overview) keyword ||
    (c.studios.map jsToLower).any (fun studio => jsIncludes studio keyword))

/-- JavaScript falsiness of a string-or-null value: null, undefined and
the empty string are falsy. -/
def strFalsy (o : Option String) : Bool :=
  match o with
  | none => true
  | some s => s = ""

/-- Source populateUnified.js lines 599-651 without the external
relationship call and the database write: merge a TMDB record into an
existing document.  TMDB scalar fields always overwrite; studios and
alternative titles are unioned through a Set (exact equality); genres are
deduplicated by key; the unified score is recomputed only when both the
existing MAL score and the incoming TMDB average are truthy, otherwise it
falls back to voteAverage || malScore || 0. -/
def mergeTmdbIntoExisting (lg : ℚ → ℚ) (now : ℤ) (e : Content) (t : ContentData) : Content :=
  { e with
    tmdbId := t.tmdbId,
    voteAverage := t.voteAverage,
    voteCount := t.voteCount,
    popularity := t.popularity,
    studios := jsSetList (e.studios ++ t.studios),
    alternativeTitles := jsSetList (e.alternativeTitles ++ t.alternativeTitles),
    genres := deduplicateGenres (e.genres ++ t.genres),
    unifiedScore :=
      bif truthy e.malScore && truthy t.voteAverage then
        calculateUnifiedScoreWithUserRatings lg t.voteAverage t.voteCount e.malScore
          e.malScoredBy e.userRatingAverage e.userRatingCount
      else jsOr (jsOr t.voteAverage e.malScore) (some 0),
    dsTmdbHasData := true,
    dsTmdbLastUpdated := some now,
    lastUpdated := some now }

/-- Source populateUnified.js lines 654-735 without the external
relationship call and the database write: merge a MAL record into an
existing document.  For anime content the descriptive fields follow the
fill-gaps / prefer-longer policy; MAL scalar fields always overwrite;
arrays are unioned as in the TMDB merge; the unified score is recomputed
only when both the existing TMDB average and the incoming MAL score are
truthy, otherwise it falls back to malScore || voteAverage || 0. -/
def mergeMalIntoExisting (lg : ℚ → ℚ) (now : ℤ) (e : Content) (m : ContentData) : Content :=
  let e1 :=
    if isAnimeContent m then
      { e with
        title := bif strFalsy e.title || decide ((e.title.getD "").length < m.title.length)
          then some m.title else e.title,
        overview := bif strFalsy e.overview ||
            decide ((e.overview.getD "").length < m.overview.length)
          then some m.overview else e.overview,
        posterPath := bif strFalsy e.posterPath then m.posterPath else e.posterPath,
        releaseDate := bif e.releaseDate.isNone then m.releaseDate else e.releaseDate }
    else e
  { e1 with
    malId := m.malId,
    malScore := m.malScore,
    malScoredBy := m.malScoredBy,
    malRank := m.malRank,
    malStatus := m.malStatus,
    malEpisodes := m.malEpisodes,
    malSource := m.malSource,
    malRating := m.malRating,
    studios := jsSetList (e1.studios ++ m.studios),
    alternativeTitles := jsSetList (e1.alternativeTitles ++ m.alternativeTitles),
    genres := deduplicateGenres (e1.genres ++ m.genres),
    unifiedScore :=
      bif truthy e1.voteAverage && truthy m.malScore then
        calculateUnifiedScoreWithUserRatings lg e1.voteAverage e1.voteCount m.malScore
          m.malScoredBy e1.userRatingAverage e1.userRatingCount
      else jsOr (jsOr m.malScore e1.voteAverage) (some 0),
    dsMalHasData := true,
    dsMalLastUpdated := some now,
    lastUpdated := some now }

/-- Source populateUnified.js lines 523-533: the unified score stored
when MAL content creates a new record, with the raw-score / 0 fallback
chain calc(...) || malScore || 0. -/
def newMalUnifiedScore (lg : ℚ → ℚ) (malScore malScoredBy : Option ℚ) : Option ℚ :=
  jsOr (jsOr (calculateUnifiedScoreWithUserRatings lg none none malScore malScoredBy none
    (some 0)) malScore) (some 0)

/-- Source populateUnified.js lines 282-293: the unified score stored when
TMDB content creates a new record, with the raw voteAverage fallback when
the calculation returns a falsy value. -/
def newTmdbUnifiedScore (lg : ℚ → ℚ) (voteAverage voteCount : Option ℚ) : Option ℚ :=
  bif !(truthy (calculateUnifiedScoreWithUserRatings lg voteAverage voteCount none none none
      (some 0))) && truthy voteAverage
  then voteAverage
  else calculateUnifiedScoreWithUserRatings lg voteAverage voteCount none none none (some 0)

section SetLemmas

variable {α : Type _} [DecidableEq α]

lemma mem_insertUniq (acc : List α) (x y : α) :
    y ∈ insertUniq acc x ↔ y ∈ acc ∨ y = x := by
  by_cases h : x ∈ acc <;> simp [insertUniq, h]
  rintro rfl
  exact h

lemma insertUniq_nodup {acc : List α} (h : acc.Nodup) (x : α) : (insertUniq acc x).Nodup := by
  by_cases hx : x ∈ acc <;> simp [insertUniq, hx, List.nodup_append, h]

lemma foldl_insertUniq_nodup : ∀ (l acc : List α), acc.Nodup → (l.foldl insertUniq acc).Nodup := by
  intro l
  induction l with
  | nil => exact fun acc h => h
  | cons x t ih =>
    intro acc h
    simp only [List.foldl_cons]
    exact ih _ (insertUniq_nodup h x)

lemma jsSetList_nodup (l : List α) : (jsSetList l).Nodup :=
  foldl_insertUniq_nodup l [] List.nodup_nil

lemma mem_foldl_insertUniq : ∀ (l acc : List α) (y : α),
    y ∈ l.foldl insertUniq acc ↔ y ∈ acc ∨ y ∈ l := by
  intro l
  induction l with
  | nil => simp
  | cons x t ih =>
    intro acc y
    simp only [List.foldl_cons, ih, mem_insertUniq, List.mem_cons]
    tauto

lemma mem_jsSetList (l : List α) (y : α) : y ∈ jsSetList l ↔ y ∈ l := by
  simpa [jsSetList] using mem_foldl_insertUniq l [] y

lemma foldl_insertUniq_absorbed : ∀ (l acc : List α), (∀ x ∈ l, x ∈ acc) →
    l.foldl insertUniq acc = acc := by
  intro l
  induction l with
  | nil => exact fun acc _ => rfl
  | cons x t ih =>
    intro acc h
    simp only [List.foldl_cons]
    rw [show insertUniq acc x = acc from by simp [insertUniq, h x (List.mem_cons_self x t)]]
    exact ih acc (fun y hy => h y (List.mem_cons_of_mem _ hy))

lemma foldl_insertUniq_nodup_eq : ∀ (l acc : List α), (acc ++ l).Nodup →
    l.foldl insertUniq acc = acc ++ l := by
  intro l
  induction l with
  | nil => simp
  | cons x t ih =>
    intro acc h
    have h' : ((acc ++ [x]) ++ t).Nodup := by simpa [List.append_assoc] using h
    have hx : x ∉ acc := by
      intro hmem
      have := List.disjoint_of_nodup_append h hmem (List.mem_cons_self x t)
      exact this
    simp only [List.foldl_cons]
    rw [show insertUniq acc x = acc ++ [x] from by simp [insertUniq, hx]]
    rw [ih (acc ++ [x]) h']
    simp [List.append_assoc]

lemma jsSetList_self {l : List α} (h : l.Nodup) : jsSetList l = l := by
  have := foldl_insertUniq_nodup_eq l [] (by simpa using h)
  simpa [jsSetList] using this

/-- Re-unioning the second operand into an already computed Set union
changes nothing: [...new Set([...new Set([...a, ...b]), ...b])] equals
[...new Set([...a, ...b])]. -/
lemma jsSetList_union_idem (a b : List α) :
    jsSetList (jsSetList (a ++ b) ++ b) = jsSetList (a ++ b) := by
  show (jsSetList (a ++ b) ++ b).foldl insertUniq [] = jsSetList (a ++ b)
  rw [List.foldl_append]
  have hX : (jsSetList (a ++ b)).foldl insertUniq [] = jsSetList (a ++ b) :=
    jsSetList_self (jsSetList_nodup _)
  rw [hX]
  exact foldl_insertUniq_absorbed b _
    (fun x hx => (mem_jsSetList _ _).mpr (List.mem_append_right a hx))

end SetLemmas

lemma genreVal_idem (g : JsGenre) : genreVal (genreVal g) = genreVal g := by
  cases g <;> rfl

lemma genreKey_genreVal (g : JsGenre) : genreKey (genreVal g) = genreKey g := by
  cases g <;> rfl

/-- Invariant of the Map-building state of deduplicateGenres: the key
list is exactly the keys of the stored values in order, keys are
pairwise distinct, and every stored value is in object form with a
present key. -/
def GoodState (st : List String × List JsGenre) : Prop :=
  st.2.filterMap genreKey = st.1 ∧ st.1.Nodup ∧
    ∀ g ∈ st.2, genreVal g = g ∧ (genreKey g).isSome

lemma dedupStep_none {st : List String × List JsGenre} {g : JsGenre}
    (h : genreKey g = none) : dedupStep st g = st := by
  unfold dedupStep
  rw [h]

lemma dedupStep_some {st : List String × List JsGenre} {g : JsGenre} {k : String}
    (h : genreKey g = some k) :
    dedupStep st g = if k ∈ st.1 then st else (st.1 ++ [k], st.2 ++ [genreVal g]) := by
  unfold dedupStep
  rw [h]

lemma dedupStep_good {st : List String × List JsGenre} (h : GoodState st) (g : JsGenre) :
    GoodState (dedupStep st g) := by
  obtain ⟨h1, h2, h3⟩ := h
  cases hk : genreKey g with
  | none => exact dedupStep_none hk ▸ ⟨h1, h2, h3⟩
  | some k =>
    rw [dedupStep_some hk]
    by_cases hmem : k ∈ st.1
    · rw [if_pos hmem]
      exact ⟨h1, h2, h3⟩
    · rw [if_neg hmem]
      refine ⟨?_, ?_, ?_⟩
      · rw [List.filterMap_append, h1]
        simp [genreKey_genreVal, hk]
      · simp [List.nodup_append, h2, hmem]
      · intro x hx
        rcases List.mem_append.mp hx with hx' | hx'
        · exact h3 x hx'
        · rw [List.mem_singleton.mp hx']
          exact ⟨genreVal_idem g, by simp [genreKey_genreVal, hk]⟩

lemma foldl_dedupStep_good : ∀ (l : List JsGenre) (st : List String × List JsGenre),
    GoodState st → GoodState (l.foldl dedupStep st) := by
  intro l
  induction l with
  | nil => exact fun st h => h
  | cons g t ih =>
    intro st h
    simp only [List.foldl_cons]
    exact ih _ (dedupStep_good h g)

lemma deduplicateGenres_good (l : List JsGenre) :
    GoodState (l.foldl dedupStep ([], [])) :=
  foldl_dedupStep_good l ([], []) ⟨rfl, List.nodup_nil, by simp⟩

lemma foldl_dedupStep_keys_mono : ∀ (l : List JsGenre) (st : List String × List JsGenre)
    (k : String), k ∈ st.1 → k ∈ (l.foldl dedupStep st).1 := by
  intro l
  induction l with
  | nil => exact fun st k hk => hk
  | cons g t ih =>
    intro st k hk
    simp only [List.foldl_cons]
    refine ih _ k ?_
    cases hg : genreKey g with
    | none => rw [dedupStep_none hg]; exact hk
    | some kg =>
      rw [dedupStep_some hg]
      by_cases hmem : kg ∈ st.1
      · rw [if_pos hmem]
        exact hk
      · rw [if_neg hmem]
        exact List.mem_append_left _ hk

lemma foldl_dedupStep_keys_complete : ∀ (l : List JsGenre) (st : List String × List JsGenre)
    (g : JsGenre) (k : String), g ∈ l → genreKey g = some k →
    k ∈ (l.foldl dedupStep st).1 := by
  intro l
  induction l with
  | nil => intro st g k hg; exact absurd hg (List.not_mem_nil g)
  | cons x t ih =>
    intro st g k hg hk
    rcases List.mem_cons.mp hg with rfl | hg'
    · simp only [List.foldl_cons]
      refine foldl_dedupStep_keys_mono t _ k ?_
      rw [dedupStep_some hk]
      by_cases hmem : k ∈ st.1
      · rw [if_pos hmem]
        exact hmem
      · rw [if_neg hmem]
        simp
    · simp only [List.foldl_cons]
      exact ih _ g k hg' hk

lemma foldl_dedupStep_absorbed : ∀ (l : List JsGenre) (st : List String × List JsGenre),
    (∀ g ∈ l, ∀ k, genreKey g = some k → k ∈ st.1) → l.foldl dedupStep st = st := by
  intro l
  induction l with
  | nil => exact fun st _ => rfl
  | cons x t ih =>
    intro st h
    simp only [List.foldl_cons]
    have hx : dedupStep st x = st := by
      cases hk : genreKey x with
      | none => exact dedupStep_none hk
      | some k =>
        rw [dedupStep_some hk, if_pos (h x (List.mem_cons_self x t) k hk)]
    rw [hx]
    exact ih st (fun g hg => h g (List.mem_cons_of_mem _ hg))

lemma foldl_dedupStep_self_run : ∀ (X : List JsGenre) (K0 : List String) (O : List JsGenre),
    (∀ g ∈ X, genreVal g = g ∧ (genreKey g).isSome) →
    (K0 ++ X.filterMap genreKey).Nodup →
    X.foldl dedupStep (K0, O) = (K0 ++ X.filterMap genreKey, O ++ X) := by
  intro X
  induction X with
  | nil => simp
  | cons g t ih =>
    intro K0 O hgood hnd
    obtain ⟨hval, hsome⟩ := hgood g (List.mem_cons_self g t)
    obtain ⟨k, hk⟩ := Option.isSome_iff_exists.mp hsome
    have hfm : (g :: t).filterMap genreKey = k :: t.filterMap genreKey := by
      simp [List.filterMap_cons, hk]
    rw [hfm] at hnd
    have hknotin : k ∉ K0 := by
      intro hmem
      exact List.disjoint_of_nodup_append hnd hmem (List.mem_cons_self _ _)
    have hnd2 : ((K0 ++ [k]) ++ t.filterMap genreKey).Nodup := by
      simpa [List.append_assoc] using hnd
    simp only [List.foldl_cons]
    have hstep : dedupStep (K0, O) g = (K0 ++ [k], O ++ [g]) := by
      rw [dedupStep_some hk]
      have : k ∉ (K0, O).1 := hknotin
      rw [if_neg this, hval]
    rw [hstep, ih (K0 ++ [k]) (O ++ [g])
      (fun x hx => hgood x (List.mem_cons_of_mem _ hx)) hnd2]
    simp [hfm, List.append_assoc]

/-- Re-deduplicating an already deduplicated union with the second
operand appended again changes nothing. -/
lemma deduplicateGenres_union_idem (a b : List JsGenre) :
    deduplicateGenres (deduplicateGenres (a ++ b) ++ b) = deduplicateGenres (a ++ b) := by
  obtain ⟨h1, h2, h3⟩ := deduplicateGenres_good (a ++ b)
  unfold deduplicateGenres
  rw [List.foldl_append]
  rw [foldl_dedupStep_self_run _ [] [] h3
    (by simp only [List.nil_append]; rw [h1]; exact h2)]
  simp only [List.nil_append]
  rw [h1]
  have habs : b.foldl dedupStep
      (((a ++ b).foldl dedupStep ([], [])).1, ((a ++ b).foldl dedupStep ([], [])).2) =
      (((a ++ b).foldl dedupStep ([], [])).1, ((a ++ b).foldl dedupStep ([], [])).2) := by
    apply foldl_dedupStep_absorbed
    intro g hg k hk
    exact foldl_dedupStep_keys_complete (a ++ b) ([], []) g k (List.mem_append_right a hg) hk
  rw [habs]

lemma deduplicateGenres_keys_nodup (l : List JsGenre) :
    ((deduplicateGenres l).filterMap genreKey).Nodup := by
  obtain ⟨h1, h2, _⟩ := deduplicateGenres_good l
  unfold deduplicateGenres
  rw [h1]
  exact h2

/-- A content record with every optional field absent, used to build the
concrete records of the counterexamples and witnesses. -/
def emptyContent : Content :=
  { title := none, overview := none, posterPath := none, releaseDate := none,
    contentType := "movie", tmdbId := none, malId := none, voteAverage := none,
    voteCount := none, popularity := none, malScore := none, malScoredBy := none,
    malRank := none, malStatus := none, malEpisodes := none, malSource := none,
    malRating := none, episodeCount := none, runtime := none, studios := [],
    alternativeTitles := [], genres := [], userRatingAverage := none,
    userRatingCount := some 0, unifiedScore := none, dsTmdbHasData := false,
    dsTmdbLastUpdated := none, dsMalHasData := false, dsMalLastUpdated := none,
    lastUpdated := none }

/-- An incoming record with every optional field absent. -/
def emptyContentData : ContentData :=
  { title := "x", overview := "", posterPath := none, releaseDate := none,
    tmdbId := none, malId := none, voteAverage := none, voteCount := none,
    popularity := none, malScore := none, malScoredBy := none, malRank := none,
    malStatus := none, malEpisodes := none, malSource := none, malRating := none,
    studios := [], alternativeTitles := [], genres := [] }

/-- C1 (amended): after either merge, the genre list has pairwise
distinct keys and the alternative titles are pairwise distinct under
exact (case-sensitive) string equality; the Set union does not
deduplicate case-insensitively, and the genre pair of the claim,
id 1 / name Action against name action, has two distinct keys (id:1 and
name:action), so deduplicateGenres keeps both entries. -/
theorem c1_merge_dedup_amended :
    (∀ (lg : ℚ → ℚ) (now : ℤ) (e : Content) (t : ContentData),
      (((mergeTmdbIntoExisting lg now e t).genres).filterMap genreKey).Nodup ∧
      ((mergeTmdbIntoExisting lg now e t).alternativeTitles).Nodup) ∧
    (∀ (lg : ℚ → ℚ) (now : ℤ) (e : Content) (m : ContentData),
      (((mergeMalIntoExisting lg now e m).genres).filterMap genreKey).Nodup ∧
      ((mergeMalIntoExisting lg now e m).alternativeTitles).Nodup) ∧
    deduplicateGenres [JsGenre.obj (some 1) (some "Action"), JsGenre.obj none (some "action")] =
      [JsGenre.obj (some 1) (some "Action"), JsGenre.obj none (some "action")] := by
  refine ⟨fun lg now e t => ⟨?_, ?_⟩, fun lg now e m => ⟨?_, ?_⟩, by decide⟩
  · exact deduplicateGenres_keys_nodup _
  · exact jsSetList_nodup _
  · exact deduplicateGenres_keys_nodup _
  · exact jsSetList_nodup _

/-- C1 counterexample: the genre lists of the claim merge to two entries,
not one, and a merge that unions alternative titles Foo and foo keeps
both, a case-insensitive duplicate. -/
theorem c1_counterexample :
    (deduplicateGenres [JsGenre.obj (some 1) (some "Action"),
        JsGenre.obj none (some "action")]).length = 2 ∧
    (mergeTmdbIntoExisting (fun _ => 0) 0
        { emptyContent with alternativeTitles := ["Foo"] }
        { emptyContentData with alternativeTitles := ["foo"] }).alternativeTitles =
      ["Foo", "foo"] := by
  constructor
  · decide
  · decide

lemma jsOr_or_zero_isSome (x y : Option ℚ) : ∃ q : ℚ, jsOr (jsOr x y) (some 0) = some q := by
  unfold jsOr
  cases hx : truthy x
  · cases hy : truthy y
    · exact ⟨0, by simp [hx, hy]⟩
    · cases y with
      | none => exact absurd hy (by decide)
      | some q => exact ⟨q, by simp [hy]⟩
  · cases x with
    | none => exact absurd hx (by decide)
    | some q => exact ⟨q, by simp [hx]⟩

lemma scoreFromSources_eq_none {l : List (ℚ × ℚ)} :
    scoreFromSources l = none ↔ l = [] := by
  unfold scoreFromSources
  by_cases h : l = [] <;> simp [h]
  split <;> simp

lemma mergeTmdb_unifiedScore (lg : ℚ → ℚ) (now : ℤ) (e : Content) (t : ContentData) :
    (mergeTmdbIntoExisting lg now e t).unifiedScore =
      bif truthy e.malScore && truthy t.voteAverage then
        calculateUnifiedScoreWithUserRatings lg t.voteAverage t.voteCount e.malScore
          e.malScoredBy e.userRatingAverage e.userRatingCount
      else jsOr (jsOr t.voteAverage e.malScore) (some 0) := rfl

lemma mergeMal_unifiedScore (lg : ℚ → ℚ) (now : ℤ) (e : Content) (m : ContentData) :
    (mergeMalIntoExisting lg now e m).unifiedScore =
      bif truthy e.voteAverage && truthy m.malScore then
        calculateUnifiedScoreWithUserRatings lg e.voteAverage e.voteCount m.malScore
          m.malScoredBy e.userRatingAverage e.userRatingCount
      else jsOr (jsOr m.malScore e.voteAverage) (some 0) := by
  by_cases ha : isAnimeContent m = true <;> simp [mergeMalIntoExisting, ha]

/-- C6 (amended): the merge recomputes the unified score through the
Score Unifier only when the existing record and the incoming data both
carry a truthy provider score; then the result is null exactly when no
source passes its threshold.  Otherwise the merge bypasses the unifier
and stores the raw chain voteAverage / malScore / 0.  Creation also
bypasses the unifier: MAL creation stores calc / malScore / 0 and is
therefore never null, while TMDB creation falls back to the raw
voteAverage only when voteAverage is truthy and stores null whenever
voteAverage is falsy (consistent with null-only-when-no-source-passes,
since a falsy score is excluded by every inclusion gate). -/
theorem c6_unified_score_policy :
    (∀ (lg : ℚ → ℚ) (now : ℤ) (e : Content) (t : ContentData),
      ((mergeTmdbIntoExisting lg now e t).unifiedScore = none →
        includedSources lg t.voteAverage t.voteCount e.malScore e.malScoredBy
          e.userRatingAverage e.userRatingCount = []) ∧
      ((truthy e.malScore && truthy t.voteAverage) = true →
        (mergeTmdbIntoExisting lg now e t).unifiedScore =
          calculateUnifiedScoreWithUserRatings lg t.voteAverage t.voteCount e.malScore
            e.malScoredBy e.userRatingAverage e.userRatingCount) ∧
      ((truthy e.malScore && truthy t.voteAverage) = false →
        (mergeTmdbIntoExisting lg now e t).unifiedScore =
          jsOr (jsOr t.voteAverage e.malScore) (some 0))) ∧
    (∀ (lg : ℚ → ℚ) (now : ℤ) (e : Content) (m : ContentData),
      ((mergeMalIntoExisting lg now e m).unifiedScore = none →
        includedSources lg e.voteAverage e.voteCount m.malScore m.malScoredBy
          e.userRatingAverage e.userRatingCount = []) ∧
      ((truthy e.voteAverage && truthy m.malScore) = true →
        (mergeMalIntoExisting lg now e m).unifiedScore =
          calculateUnifiedScoreWithUserRatings lg e.voteAverage e.voteCount m.malScore
            m.malScoredBy e.userRatingAverage e.userRatingCount) ∧
      ((truthy e.voteAverage && truthy m.malScore) = false →
        (mergeMalIntoExisting lg now e m).unifiedScore =
          jsOr (jsOr m.malScore e.voteAverage) (some 0))) ∧
    (∀ (lg : ℚ → ℚ) (ms msb : Option ℚ), ∃ q : ℚ,
      newMalUnifiedScore lg ms msb = some q) ∧
    (∀ (lg : ℚ → ℚ) (ms : Option ℚ), truthy ms = true →
      newMalUnifiedScore lg ms (some 0) = ms) ∧
    (∀ (lg : ℚ → ℚ) (va : Option ℚ), truthy va = true →
      newTmdbUnifiedScore lg va (some 0) = va) ∧
    (∀ (lg : ℚ → ℚ) (va vc : Option ℚ), truthy va = false →
      newTmdbUnifiedScore lg va vc = none) := by
  have hmalzero : ∀ (lg : ℚ → ℚ) (ms : Option ℚ),
      calculateUnifiedScoreWithUserRatings lg none none ms (some 0) none (some 0) = none := by
    intro lg ms
    simp [calculateUnifiedScoreWithUserRatings, includedSources, includeTmdb, includeMal,
      includeUser, truthy, hasMultipleSources, scoreFromSources, jsGt]
  have htmdbzero : ∀ (lg : ℚ → ℚ) (va : Option ℚ),
      calculateUnifiedScoreWithUserRatings lg va (some 0) none none none (some 0) = none := by
    intro lg va
    simp [calculateUnifiedScoreWithUserRatings, includedSources, includeTmdb, includeMal,
      includeUser, truthy, hasMultipleSources, scoreFromSources, jsGt]
  refine ⟨?_, ?_, ?_, ?_, ?_, ?_⟩
  · intro lg now e t
    refine ⟨?_, ?_, ?_⟩
    · intro hnone
      rw [mergeTmdb_unifiedScore] at hnone
      cases hc : (truthy e.malScore && truthy t.voteAverage)
      · rw [hc] at hnone
        obtain ⟨q, hq⟩ := jsOr_or_zero_isSome t.voteAverage e.malScore
        rw [cond_false, hq] at hnone
        exact absurd hnone (by simp)
      · rw [hc, cond_true, calculateUnifiedScoreWithUserRatings] at hnone
        exact scoreFromSources_eq_none.mp hnone
    · intro hc
      rw [mergeTmdb_unifiedScore, hc, cond_true]
    · intro hc
      rw [mergeTmdb_unifiedScore, hc, cond_false]
  · intro lg now e m
    refine ⟨?_, ?_, ?_⟩
    · intro hnone
      rw [mergeMal_unifiedScore] at hnone
      cases hc : (truthy e.voteAverage && truthy m.malScore)
      · rw [hc] at hnone
        obtain ⟨q, hq⟩ := jsOr_or_zero_isSome m.malScore e.voteAverage
        rw [cond_false, hq] at hnone
        exact absurd hnone (by simp)
      · rw [hc, cond_true, calculateUnifiedScoreWithUserRatings] at hnone
        exact scoreFromSources_eq_none.mp hnone
    · intro hc
      rw [mergeMal_unifiedScore, hc, cond_true]
    · intro hc
      rw [mergeMal_unifiedScore, hc, cond_false]
  · intro lg ms msb
    unfold newMalUnifiedScore
    exact jsOr_or_zero_isSome _ ms
  · intro lg ms hms
    unfold newMalUnifiedScore
    rw [hmalzero lg ms]
    cases ms with
    | none => exact absurd hms (by decide)
    | some q =>
      have hq : (q != 0) = true := hms
      simp [jsOr, truthy, hq]
  · intro lg va hva
    unfold newTmdbUnifiedScore
    rw [htmdbzero lg va]
    have hn : truthy (none : Option ℚ) = false := rfl
    simp [hn, hva]
  · intro lg va vc hva
    have hit : includeTmdb va vc none none = false := by
      simp [includeTmdb, hva]
    have him : includeMal va none none none = false := by
      simp [includeMal, truthy]
    have hiu : includeUser none (some 0) = false := by decide
    have hu : calculateUnifiedScoreWithUserRatings lg va vc none none none (some 0) = none := by
      simp [calculateUnifiedScoreWithUserRatings, includedSources, hit, him, hiu,
        scoreFromSources]
    unfold newTmdbUnifiedScore
    rw [hu]
    have hn : truthy (none : Option ℚ) = false := rfl
    simp [hn, hva]

/-- Witness for c6_unified_score_policy: with both provider scores truthy
the merged unified score is the unifier output, MAL creation with a
truthy score but zero raters stores the raw score, TMDB creation with a
truthy average and zero votes stores the raw average, and TMDB creation
with an absent average stores null. -/
theorem c6_unified_score_policy_witness :
    (mergeTmdbIntoExisting (fun _ => 0) 0 { emptyContent with malScore := some 7 }
        { emptyContentData with voteAverage := some 8, voteCount := some 20 }).unifiedScore =
      calculateUnifiedScoreWithUserRatings (fun _ => 0) (some 8) (some 20) (some 7) none none
        (some 0) ∧
    newMalUnifiedScore (fun _ => 0) (some 7) (some 0) = some 7 ∧
    newTmdbUnifiedScore (fun _ => 0) (some 8) (some 0) = some 8 ∧
    newTmdbUnifiedScore (fun _ => 0) none (some 5) = none := by
  have h := c6_unified_score_policy
  exact ⟨(h.1 (fun _ => 0) 0 _ _).2.1 (by decide),
    h.2.2.2.1 (fun _ => 0) (some 7) (by decide),
    h.2.2.2.2.1 (fun _ => 0) (some 8) (by decide),
    h.2.2.2.2.2 (fun _ => 0) none (some 5) (by decide)⟩

/-- C6 counterexample: merging TMDB data with no truthy provider score on
either side stores unified score 0 directly although the Score Unifier
returns null on exactly those inputs, so the merge does not always
recompute through the unifier. -/
theorem c6_counterexample :
    (mergeTmdbIntoExisting (fun _ => 0) 0 emptyContent emptyContentData).unifiedScore = some 0 ∧
    calculateUnifiedScoreWithUserRatings (fun _ => 0) emptyContentData.voteAverage
      emptyContentData.voteCount emptyContent.malScore emptyContent.malScoredBy
      emptyContent.userRatingAverage emptyContent.userRatingCount = none := by
  constructor
  · decide
  · decide

lemma fillGapStr_idem (q p0 : Option String) :
    (bif strFalsy (bif strFalsy p0 then q else p0) then q
      else (bif strFalsy p0 then q else p0)) = (bif strFalsy p0 then q else p0) := by
  cases hc : strFalsy p0
  · simp [hc]
  · simp only [hc, cond_true]
    cases strFalsy q <;> rfl

lemma fillGapDate_idem (q p0 : Option Int) :
    (bif (bif p0.isNone then q else p0).isNone then q
      else (bif p0.isNone then q else p0)) = (bif p0.isNone then q else p0) := by
  cases hc : p0.isNone
  · simp [hc]
  · simp only [hc, cond_true]
    cases q.isNone <;> rfl

lemma fillLonger_idem (t0 : Option String) (mt : String) :
    (bif strFalsy (bif strFalsy t0 || decide ((t0.getD "").length < mt.length)
          then some mt else t0) ||
        decide (((bif strFalsy t0 || decide ((t0.getD "").length < mt.length)
          then some mt else t0).getD "").length < mt.length)
      then some mt
      else bif strFalsy t0 || decide ((t0.getD "").length < mt.length) then some mt else t0) =
      bif strFalsy t0 || decide ((t0.getD "").length < mt.length) then some mt else t0 := by
  cases hc : (strFalsy t0 || decide ((t0.getD "").length < mt.length))
  · simp [hc]
  · simp only [hc, cond_true]
    cases (strFalsy (some mt) ||
      decide (((some mt : Option String).getD "").length < mt.length)) <;> rfl

/-- C9: merging the same MAL source data into a record twice in
succession (with the same clock reading) produces exactly the same record
as merging it once: the Set unions and the keyed genre deduplication
absorb re-added elements, the fill-gap and prefer-longer descriptive
overwrites are idempotent, the scalar overwrites always write the same
incoming values, and the unified score is recomputed from unchanged
inputs. -/
theorem c9_merge_mal_idempotent (lg : ℚ → ℚ) (now : ℤ) (e : Content) (m : ContentData) :
    mergeMalIntoExisting lg now (mergeMalIntoExisting lg now e m) m =
      mergeMalIntoExisting lg now e m := by
  by_cases ha : isAnimeContent m = true
  · simp only [mergeMalIntoExisting, ha, if_true]
    simp [jsSetList_union_idem, deduplicateGenres_union_idem, fillGapStr_idem, fillGapDate_idem,
      fillLonger_idem]
  · simp only [mergeMalIntoExisting, ha, if_false]
    simp [jsSetList_union_idem, deduplicateGenres_union_idem]

/-- The lowercased comparison name of a genre, from the mapping
g.name?.toLowerCase() || g.toLowerCase() of populateUnified.js lines
428-431: the lowercased name for objects with a truthy name, the
lowercased string for string genres; none marks the object-without-name
case in which the JavaScript expression would throw, so the claims about
the fact checker are stated for well-formed genres. -/
def genreLowerName : JsGenre → Option String
  | .str s => some (jsToLower s)
  | .obj _ (some n) => if n = "" then none else some (jsToLower n)
  | .obj _ none => none

/-- A genre on which the fact-checker mapping does not throw: a string,
or an object with a truthy name. -/
def wellFormedGenre (g : JsGenre) : Prop := (genreLowerName g).isSome

instance (g : JsGenre) : Decidable (wellFormedGenre g) := by
  unfold wellFormedGenre
  infer_instance


/-- The lowercased genre names of a record as compared by the fact
checker (ill-formed entries are read as the empty string; the theorems
assume well-formedness). -/
def genreNamesLower (gs : List JsGenre) : List String :=
  gs.map (fun g => (genreLowerName g).getD "")

/-- Source populateUnified.js lines 403-416: the release-year proximity
check, skipped unless both dates are present; tolerance 2 years when the
new record is a movie, else 3. -/
def yearCheck (n e : Content) : Bool :=
  bif n.releaseDate.isSome && e.releaseDate.isSome then
    decide ((n.releaseDate.getD 0 - e.releaseDate.getD 0).natAbs ≤
      (if n.contentType = "movie" then 2 else 3))
  else true

/-- Source populateUnified.js lines 419-425: exact content-type match,
never skipped. -/
def typeCheck (n e : Content) : Bool :=
  decide (n.contentType = e.contentType)

/-- Source populateUnified.js lines 427-446: genre overlap, skipped
unless both genre lists are non-empty; requires at least one shared
lowercased name. -/
def genreCheck (n e : Content) : Bool :=
  bif !(genreNamesLower n.genres).isEmpty && !(genreNamesLower e.genres).isEmpty then
    !((genreNamesLower n.genres).filter
        (fun g => (genreNamesLower e.genres).contains g)).isEmpty
  else true

/-- The episode count consulted by the fact checker: episodeCount with
the JavaScript || fallback to malEpisodes. -/
def effectiveEpisodes (c : Content) : Option ℚ :=
  jsOr c.episodeCount c.malEpisodes

/-- Source populateUnified.js lines 449-458: episode-count proximity for
tv content, skipped unless both effective counts are truthy; tolerance
10. -/
def episodeCheck (n e : Content) : Bool :=
  bif decide (n.contentType = "tv") then
    bif truthy (effectiveEpisodes n) && truthy (effectiveEpisodes e) then
      decide (|(effectiveEpisodes n).getD 0 - (effectiveEpisodes e).getD 0| ≤ 10)
    else true
  else true

/-- Source populateUnified.js lines 461-471: runtime proximity for
movies, skipped unless both runtimes are truthy; tolerance 45 minutes. -/
def runtimeCheck (n e : Content) : Bool :=
  bif decide (n.contentType = "movie") then
    bif truthy n.runtime && truthy e.runtime then
      decide (|n.runtime.getD 0 - e.runtime.getD 0| ≤ 45)
    else true
  else true

/-- Source populateUnified.js lines 401-476: the Fact Checker returns
true exactly when every applicable check passes (each early return false
of the source corresponds to one conjunct here, in source order). -/
def isLikelySameContent (n e : Content) : Bool :=
  yearCheck n e && typeCheck n e && genreCheck n e && episodeCheck n e && runtimeCheck n e

/-- Modelled from the wording of the claim (the reference predicate that
the Fact Checker is compared against): content types exactly equal; for
both dates present, year difference at most 2 for movies and 3
otherwise; for both genre lists non-empty, a shared case-insensitive
name; for tv with both effective episode counts present, difference at
most 10; for movies with both runtimes present, difference at most 45. -/
def specSameContent (n e : Content) : Prop :=
  n.contentType = e.contentType ∧
  (∀ ny ey : ℤ, n.releaseDate = some ny → e.releaseDate = some ey →
    (ny - ey).natAbs ≤ (if n.contentType = "movie" then 2 else 3)) ∧
  (n.genres ≠ [] → e.genres ≠ [] →
    ∃ s, s ∈ genreNamesLower n.genres ∧ s ∈ genreNamesLower e.genres) ∧
  (n.contentType = "tv" → truthy (effectiveEpisodes n) = true →
    truthy (effectiveEpisodes e) = true →
    |(effectiveEpisodes n).getD 0 - (effectiveEpisodes e).getD 0| ≤ 10) ∧
  (n.contentType = "movie" → truthy n.runtime = true → truthy e.runtime = true →
    |n.runtime.getD 0 - e.runtime.getD 0| ≤ 45)

lemma bif_guard_eq_true {c x : Bool} : (bif c then x else true) = true ↔ (c = true → x = true) := by
  cases c <;> simp

lemma yearCheck_eq_true {n e : Content} : yearCheck n e = true ↔
    ∀ ny ey : ℤ, n.releaseDate = some ny → e.releaseDate = some ey →
      (ny - ey).natAbs ≤ (if n.contentType = "movie" then 2 else 3) := by
  unfold yearCheck
  cases hn : n.releaseDate with
  | none => simp [hn]
  | some ny =>
    cases he : e.releaseDate with
    | none => simp [he]
    | some ey => simp [hn, he]

lemma typeCheck_eq_true {n e : Content} : typeCheck n e = true ↔
    n.contentType = e.contentType := by
  simp [typeCheck]

lemma genreCheck_eq_true {n e : Content} : genreCheck n e = true ↔
    (n.genres ≠ [] → e.genres ≠ [] →
      ∃ s, s ∈ genreNamesLower n.genres ∧ s ∈ genreNamesLower e.genres) := by
  unfold genreCheck
  by_cases h1 : n.genres = []
  · simp [h1, genreNamesLower]
  · by_cases h2 : e.genres = []
    · simp [h2, genreNamesLower]
    · have e1 : (genreNamesLower n.genres).isEmpty = false := by
        simp [genreNamesLower, List.isEmpty_iff, h1]
      have e2 : (genreNamesLower e.genres).isEmpty = false := by
        simp [genreNamesLower, List.isEmpty_iff, h2]
      simp [e1, e2, h1, h2, List.isEmpty_iff, List.filter_eq_nil_iff]

lemma episodeCheck_eq_true {n e : Content} : episodeCheck n e = true ↔
    (n.contentType = "tv" → truthy (effectiveEpisodes n) = true →
      truthy (effectiveEpisodes e) = true →
      |(effectiveEpisodes n).getD 0 - (effectiveEpisodes e).getD 0| ≤ 10) := by
  unfold episodeCheck
  rw [bif_guard_eq_true]
  simp only [decide_eq_true_eq]
  constructor
  · intro h htv h1 h2
    have hg := h htv
    rw [bif_guard_eq_true] at hg
    have := hg (by rw [h1, h2]; rfl)
    simpa using this
  · intro h htv
    rw [bif_guard_eq_true]
    intro hand
    rw [Bool.and_eq_true] at hand
    simp only [decide_eq_true_eq]
    exact h htv hand.1 hand.2

lemma runtimeCheck_eq_true {n e : Content} : runtimeCheck n e = true ↔
    (n.contentType = "movie" → truthy n.runtime = true → truthy e.runtime = true →
      |n.runtime.getD 0 - e.runtime.getD 0| ≤ 45) := by
  unfold runtimeCheck
  rw [bif_guard_eq_true]
  simp only [decide_eq_true_eq]
  constructor
  · intro h hmv h1 h2
    have hg := h hmv
    rw [bif_guard_eq_true] at hg
    have := hg (by rw [h1, h2]; rfl)
    simpa using this
  · intro h hmv
    rw [bif_guard_eq_true]
    intro hand
    rw [Bool.and_eq_true] at hand
    simp only [decide_eq_true_eq]
    exact h hmv hand.1 hand.2

/-- The Bool fact checker decides the reference predicate. -/
lemma isLikelySameContent_eq_true {n e : Content} :
    isLikelySameContent n e = true ↔ specSameContent n e := by
  unfold isLikelySameContent specSameContent
  simp only [Bool.and_eq_true, yearCheck_eq_true, typeCheck_eq_true, genreCheck_eq_true,
    episodeCheck_eq_true, runtimeCheck_eq_true]
  tauto

lemma specSame_symm_of_ct {x y : Content} (hct : x.contentType = y.contentType)
    (h : specSameContent x y) : specSameContent y x := by
  obtain ⟨h1, h2, h3, h4, h5⟩ := h
  refine ⟨h1.symm, ?_, ?_, ?_, ?_⟩
  · intro ny ey hny hey
    have hx := h2 ey ny hey hny
    rw [← hct]
    omega
  · intro hyg hxg
    obtain ⟨s, hs1, hs2⟩ := h3 hxg hyg
    exact ⟨s, hs2, hs1⟩
  · intro htv hy1 hy2
    have := h4 (by rw [hct]; exact htv) hy2 hy1
    rwa [abs_sub_comm]
  · intro hmv hy1 hy2
    have := h5 (by rw [hct]; exact hmv) hy2 hy1
    rwa [abs_sub_comm]

/-- C7: for well-formed genre entries the Fact Checker returns true
exactly when all applicable checks pass, each check skipped when either
side lacks the relevant data (both dates present for the year check, both
genre lists non-empty for the overlap check, both effective episode
counts truthy for the tv check, both runtimes truthy for the movie
check, and content-type equality never skipped); in particular a record
differing from another only by a missing release date still passes. -/
theorem c7_fact_check_characterization (n e : Content)
    (hn : ∀ g ∈ n.genres, wellFormedGenre g) (he : ∀ g ∈ e.genres, wellFormedGenre g) :
    (isLikelySameContent n e = true ↔ specSameContent n e) ∧
    isLikelySameContent { n with releaseDate := none } n = true := by
  refine ⟨isLikelySameContent_eq_true, ?_⟩
  rw [isLikelySameContent_eq_true]
  refine ⟨rfl, ?_, ?_, ?_, ?_⟩
  · intro ny ey hny hey
    exact absurd hny (by simp)
  · intro hne _
    have hnames : genreNamesLower n.genres ≠ [] := by
      simp only [genreNamesLower, ne_eq, List.map_eq_nil_iff]
      exact hne
    obtain ⟨s, hs⟩ := List.exists_mem_of_ne_nil _ hnames
    exact ⟨s, hs, hs⟩
  · intro _ _ _
    show |(effectiveEpisodes n).getD 0 - (effectiveEpisodes n).getD 0| ≤ 10
    simp
  · intro _ _ _
    show |n.runtime.getD 0 - n.runtime.getD 0| ≤ 45
    simp

/-- A concrete record used by the fact-checker witnesses. -/
def sampleMovie : Content :=
  { emptyContent with
      genres := [JsGenre.str "drama"]
      releaseDate := some 2016
      runtime := some 100 }

/-- Witness for c7_fact_check_characterization at a concrete drama movie
record compared with itself. -/
theorem c7_fact_check_characterization_witness :
    (isLikelySameContent sampleMovie sampleMovie = true ↔
      specSameContent sampleMovie sampleMovie) ∧
    isLikelySameContent { sampleMovie with releaseDate := none } sampleMovie = true :=
  c7_fact_check_characterization sampleMovie sampleMovie (by decide) (by decide)

/-- C10: the Fact Checker is symmetric on records with well-formed
genres: although the year tolerance and the episode / runtime checks are
selected from the first argument, a content-type mismatch fails in both
orders, and with equal content types every threshold choice agrees. -/
theorem c10_fact_checker_symmetric (a b : Content)
    (ha : ∀ g ∈ a.genres, wellFormedGenre g) (hb : ∀ g ∈ b.genres, wellFormedGenre g) :
    isLikelySameContent a b = isLikelySameContent b a := by
  by_cases hct : a.contentType = b.contentType
  · have h1 := @isLikelySameContent_eq_true a b
    have h2 := @isLikelySameContent_eq_true b a
    cases hab : isLikelySameContent a b <;> cases hba : isLikelySameContent b a
    · rfl
    · rw [hab] at h1
      rw [hba] at h2
      exact absurd (h1.mpr (specSame_symm_of_ct hct.symm (h2.mp rfl))) (by simp)
    · rw [hab] at h1
      rw [hba] at h2
      exact absurd (h2.mpr (specSame_symm_of_ct hct (h1.mp rfl))) (by simp)
    · rfl
  · have t1 : typeCheck a b = false := by simp [typeCheck, hct]
    have t2 : typeCheck b a = false := by
      simp only [typeCheck, decide_eq_false_iff_not]
      exact fun h => hct h.symm
    unfold isLikelySameContent
    rw [t1, t2]
    simp

/-- Witness for c10_fact_checker_symmetric at two concrete records. -/
theorem c10_fact_checker_symmetric_witness :
    isLikelySameContent sampleMovie emptyContent =
      isLikelySameContent emptyContent sampleMovie :=
  c10_fact_checker_symmetric sampleMovie emptyContent (by decide) (by decide)

/-- The whitespace test of String.prototype.trim, restricted to the
common ASCII whitespace characters. -/
def isWsChar (c : Char) : Bool := c = ' ' || c = '\t' || c = '\n' || c = '\r'

/-- String.prototype.trim: strip leading and trailing whitespace. -/
def jsTrim (s : String) : String :=
  String.mk (((s.data.dropWhile isWsChar).reverse.dropWhile isWsChar).reverse)

/-- Source populateUnified.js lines 363-397: the Title Normalizer.  The
two regex-replacement chains (lines 371-379 on the lowercased title and
lines 386-390 on the original title) are kept as explicit function
parameters clean1 and clean2, because every property proved here holds
for arbitrary cleaning functions; the push conditions, the Set
deduplication and the final truthiness / length filter are modelled
exactly. -/
def generateTitleVariations (clean1 clean2 : String → String) (title : String) : List String :=
  let normalized := jsTrim (jsToLower title)
  let cleaned := clean1 normalized
  let originalCleaned := clean2 title
  (jsSetList
    ([title, normalized] ++
      (if cleaned ≠ normalized ∧ cleaned.length > 2 then [cleaned] else []) ++
      (if originalCleaned ≠ title ∧ originalCleaned.length > 2
        then [jsToLower originalCleaned] else []))).filter
    (fun v => decide (v ≠ "") && decide (2 < v.length))

lemma insertUniq_length_le {α : Type _} [DecidableEq α] (acc : List α) (x : α) :
    (insertUniq acc x).length ≤ acc.length + 1 := by
  by_cases h : x ∈ acc <;> simp [insertUniq, h]

lemma foldl_insertUniq_length_le {α : Type _} [DecidableEq α] :
    ∀ (l acc : List α), (l.foldl insertUniq acc).length ≤ acc.length + l.length := by
  intro l
  induction l with
  | nil => simp
  | cons x t ih =>
    intro acc
    simp only [List.foldl_cons, List.length_cons]
    calc (List.foldl insertUniq (insertUniq acc x) t).length
        ≤ (insertUniq acc x).length + t.length := ih _
      _ ≤ acc.length + 1 + t.length := by
          have := insertUniq_length_le acc x
          omega
      _ = acc.length + (t.length + 1) := by omega

lemma jsSetList_length_le {α : Type _} [DecidableEq α] (l : List α) :
    (jsSetList l).length ≤ l.length := by
  have := foldl_insertUniq_length_le l ([] : List α)
  simpa [jsSetList] using this

lemma foldl_insertUniq_keeps_start {α : Type _} [DecidableEq α] :
    ∀ (l acc : List α), ∃ t : List α, l.foldl insertUniq acc = acc ++ t := by
  intro l
  induction l with
  | nil => exact fun acc => ⟨[], by simp⟩
  | cons x s ih =>
    intro acc
    simp only [List.foldl_cons]
    by_cases h : x ∈ acc
    · have hx : insertUniq acc x = acc := by simp [insertUniq, h]
      rw [hx]
      exact ih acc
    · have hx : insertUniq acc x = acc ++ [x] := by simp [insertUniq, h]
      rw [hx]
      obtain ⟨t, ht⟩ := ih (acc ++ [x])
      exact ⟨[x] ++ t, by simp [ht]⟩

lemma jsSetList_filter_head {α : Type _} [DecidableEq α] {p : α → Bool} (x : α) (l : List α)
    (hx : p x = true) : ((jsSetList (x :: l)).filter p).head? = some x := by
  have hstart : insertUniq ([] : List α) x = [x] := by simp [insertUniq]
  obtain ⟨t, ht⟩ := foldl_insertUniq_keeps_start l [x]
  have hset : jsSetList (x :: l) = [x] ++ t := by
    show List.foldl insertUniq [] (x :: l) = [x] ++ t
    rw [List.foldl_cons, hstart]
    exact ht
  rw [hset]
  simp [List.filter_append, List.filter_cons, hx]

/-- C8 (amended): for every cleaning chain and every title, the produced
variation list is duplicate-free, has at most 4 entries, every entry is
longer than 2 characters, and the original title is the first entry
whenever the title itself is longer than 2 characters.  A title of
length at most 2 is removed by the final length filter together with
every other short variation, so the original title is not always
contained (see the counterexample). -/
theorem c8_title_variations_amended (clean1 clean2 : String → String) (title : String) :
    (generateTitleVariations clean1 clean2 title).Nodup ∧
    (generateTitleVariations clean1 clean2 title).length ≤ 4 ∧
    (∀ v ∈ generateTitleVariations clean1 clean2 title, 2 < v.length) ∧
    (2 < title.length → (generateTitleVariations clean1 clean2 title).head? = some title) := by
  refine ⟨?_, ?_, ?_, ?_⟩
  · exact (jsSetList_nodup _).filter _
  · refine le_trans (List.length_filter_le _ _) ?_
    refine le_trans (jsSetList_length_le _) ?_
    simp only [List.length_append]
    split <;> split <;> simp
  · intro v hv
    have hm := List.of_mem_filter hv
    simp only [Bool.and_eq_true, decide_eq_true_eq] at hm
    exact hm.2
  · intro hlen
    have hp : (fun v => decide (v ≠ "") && decide (2 < v.length)) title = true := by
      simp only [Bool.and_eq_true, decide_eq_true_eq]
      refine ⟨?_, hlen⟩
      intro he
      rw [he] at hlen
      simp at hlen
    exact jsSetList_filter_head title _ hp

/-- Witness for c8_title_variations_amended: a title longer than 2
characters heads its own variation list. -/
theorem c8_title_variations_amended_witness :
    (generateTitleVariations id id "Naruto").head? = some "Naruto" :=
  (c8_title_variations_amended id id "Naruto").2.2.2 (by decide)

/-- C8 counterexample: for the two-character title Up every variation
(the title itself and its lowercase form; both cleaning chains of the
source leave the string up unchanged, exactly as the identity
instantiation used here) is removed by the length filter, so the result
is empty and does not contain the original title. -/
theorem c8_counterexample : generateTitleVariations id id "Up" = [] := by decide
